import Mathlib

/-!
Verification of the plainapi data-ingestion pipeline.

Python strings are modelled as `List Char`; `str.strip()`, slicing, `in`
(substring test) and `str.split` are embedded below.  The functions of
`src/core/utils.py` (`generate_id`, `chunk_text`), `src/data_ingestion/schemas.py`
(`APIDocument.generate_id_if_missing`) and
`src/data_ingestion/document_processor.py` (`DocumentProcessor`) are translated
one by one; each definition carries a note of the source lines it embeds.
-/

set_option maxRecDepth 40000

namespace PlainAPI

/-! ### Python string primitives -/

/-- Python whitespace recognised by `str.strip()` (ASCII subset). -/
def isPySpace (c : Char) : Bool :=
  c = ' ' || c = '\t' || c = '\n' || c = '\r' || c = Char.ofNat 11 || c = Char.ofNat 12

/-- Python `s.strip()`: drop whitespace from both ends. -/
def trim (l : List Char) : List Char :=
  ((l.dropWhile isPySpace).reverse.dropWhile isPySpace).reverse

/-- Python slice `s[a:b]` (for `0 ≤ a`, `0 ≤ b`). -/
def sliceStr (l : List Char) (a b : Nat) : List Char :=
  (l.take b).drop a

/-- Python `s.lower()` (ASCII). -/
def lowerL (l : List Char) : List Char := l.map Char.toLower

/-- Does `l` start with `p`? -/
def startsW : List Char → List Char → Bool
  | _, [] => true
  | [], _ :: _ => false
  | c :: cs, p :: ps => c = p && startsW cs ps

/-- Python `needle in hay` substring test. -/
def hasSub : List Char → List Char → Bool
  | [], needle => needle.isEmpty
  | c :: cs, needle => startsW (c :: cs) needle || hasSub cs needle

/-- Python `s.split(sep)` for a one-character separator. -/
def splitOnChar (sep : Char) : List Char → List (List Char)
  | [] => [[]]
  | c :: cs =>
    match splitOnChar sep cs with
    | [] => [[]]
    | h :: t => if c = sep then [] :: h :: t else (c :: h) :: t

/-! ### `chunk_text` (src/core/utils.py lines 27-70)

The Python `while start < text_length` loop advances `start` by
`end - overlap - start ≥ chunk_size - overlap` per iteration, so when
`overlap < chunk_size` it performs at most `text.length` iterations; the loop
is embedded with that iteration count as structural fuel
(`chunk_text_termination` proves the result is unchanged by any larger fuel). -/

/-- The sentence/paragraph break characters `'.!?\n'` of `chunk_text`. -/
def isBreakChar (c : Char) : Bool :=
  c = '.' || c = '!' || c = '?' || c = '\n'

/-- Lines 50-55: `for i in range(start, max(start - overlap, 0), -1): if i < len(text)
and text[i] in '.!?\n': start = i + 1; break`. -/
def backAdjust (text : List Char) (ov start : Nat) : Nat :=
  match (List.range' (start - ov + 1) (start - (start - ov))).reverse.find?
      (fun i => decide (i < text.length) && isBreakChar (text.getD i ' ')) with
  | some i => i + 1
  | none => start

/-- Lines 58-62: `for i in range(end, min(end + overlap, text_length)): if text[i] in
'.!?\n': end = i + 1; break`. -/
def fwdAdjust (text : List Char) (ov e0 : Nat) : Nat :=
  match (List.range' e0 (min (e0 + ov) text.length - e0)).find?
      (fun i => isBreakChar (text.getD i ' ')) with
  | some i => i + 1
  | none => e0

/-- The value of `end` after line 47 (`end = start + chunk_size`) and the forward
adjustment guarded by `if end < text_length`. -/
def stepEnd (text : List Char) (cs ov start : Nat) : Nat :=
  if start + cs < text.length then fwdAdjust text ov (start + cs) else start + cs

/-- The stripped slice `text[start:end].strip()` produced by one loop
iteration (line 64). -/
def chunkAt (text : List Char) (cs ov start : Nat) : List Char :=
  trim (sliceStr text (if 0 < start then backAdjust text ov start else start)
    (stepEnd text cs ov start))

/-- One unfolding of the `while` loop per unit of fuel (lines 46-68). -/
def chunkAux (text : List Char) (cs ov : Nat) : Nat → Nat → List (List Char)
  | 0, _ => []
  | fuel + 1, start =>
    if start < text.length then
      let s1 := if 0 < start then backAdjust text ov start else start
      let e1 := stepEnd text cs ov start
      let chunk := trim (sliceStr text s1 e1)
      let rest := chunkAux text cs ov fuel (e1 - ov)
      if chunk = [] then rest else chunk :: rest
    else []

/-- Function `chunk_text(text, chunk_size, overlap)` (lines 27-70); `if not text: return []`
is the `fuel = 0` case. -/
def chunk_text (text : List Char) (cs ov : Nat) : List (List Char) :=
  chunkAux text cs ov text.length 0

/-! ### `generate_id` (src/core/utils.py lines 10-12)

`hashlib.md5(text.encode()).hexdigest()[:16]`: UTF-8 encoding, the MD5
algorithm of RFC 1321 on `Nat` bytes/32-bit words, lowercase hex formatting,
first 16 characters. -/

/-- UTF-8 encoding of one code point (`str.encode()`). -/
def utf8Encode1 (c : Char) : List Nat :=
  let n := c.toNat
  if n < 128 then [n]
  else if n < 2048 then [192 + n / 64, 128 + n % 64]
  else if n < 65536 then [224 + n / 4096, 128 + n / 64 % 64, 128 + n % 64]
  else [240 + n / 262144, 128 + n / 4096 % 64, 128 + n / 64 % 64, 128 + n % 64]

/-- Python `text.encode()`: UTF-8 bytes of a string. -/
def utf8Bytes (s : List Char) : List Nat := (s.map utf8Encode1).flatten

/-- Left rotation of a 32-bit word by `s` bits. -/
def rotl32 (x s : Nat) : Nat :=
  (x * 2 ^ s + x / 2 ^ (32 - s)) % 2 ^ 32

/-- The 64 MD5 sine constants `K[0..63]`. -/
def md5K : List Nat :=
  [0xd76aa478, 0xe8c7b756, 0x242070db, 0xc1bdceee,
   0xf57c0faf, 0x4787c62a, 0xa8304613, 0xfd469501,
   0x698098d8, 0x8b44f7af, 0xffff5bb1, 0x895cd7be,
   0x6b901122, 0xfd987193, 0xa679438e, 0x49b40821,
   0xf61e2562, 0xc040b340, 0x265e5a51, 0xe9b6c7aa,
   0xd62f105d, 0x02441453, 0xd8a1e681, 0xe7d3fbc8,
   0x21e1cde6, 0xc33707d6, 0xf4d50d87, 0x455a14ed,
   0xa9e3e905, 0xfcefa3f8, 0x676f02d9, 0x8d2a4c8a,
   0xfffa3942, 0x8771f681, 0x6d9d6122, 0xfde5380c,
   0xa4beea44, 0x4bdecfa9, 0xf6bb4b60, 0xbebfbc70,
   0x289b7ec6, 0xeaa127fa, 0xd4ef3085, 0x04881d05,
   0xd9d4d039, 0xe6db99e5, 0x1fa27cf8, 0xc4ac5665,
   0xf4292244, 0x432aff97, 0xab9423a7, 0xfc93a039,
   0x655b59c3, 0x8f0ccc92, 0xffeff47d, 0x85845dd1,
   0x6fa87e4f, 0xfe2ce6e0, 0xa3014314, 0x4e0811a1,
   0xf7537e82, 0xbd3af235, 0x2ad7d2bb, 0xeb86d391]

/-- The 64 MD5 per-round shift amounts `s[0..63]`. -/
def md5S : List Nat :=
  [7, 12, 17, 22, 7, 12, 17, 22, 7, 12, 17, 22, 7, 12, 17, 22,
   5, 9, 14, 20, 5, 9, 14, 20, 5, 9, 14, 20, 5, 9, 14, 20,
   4, 11, 16, 23, 4, 11, 16, 23, 4, 11, 16, 23, 4, 11, 16, 23,
   6, 10, 15, 21, 6, 10, 15, 21, 6, 10, 15, 21, 6, 10, 15, 21]

/-- MD5 message padding: `0x80`, zeros to 56 mod 64, then the bit length as a
64-bit little-endian quantity. -/
def md5Pad (msg : List Nat) : List Nat :=
  let padLen := (119 - msg.length % 64) % 64 + 1
  let bitLen := msg.length * 8 % 2 ^ 64
  msg ++ 128 :: List.replicate (padLen - 1) 0 ++
    (List.range 8).map (fun i => bitLen / 2 ^ (8 * i) % 256)

/-- Split a byte string into 64-byte blocks; the padded message has at most
`fuel` blocks because each block consumes 64 bytes. -/
def toBlocksAux : Nat → List Nat → List (List Nat)
  | 0, _ => []
  | _, [] => []
  | fuel + 1, b :: bs => (b :: bs.take 63) :: toBlocksAux fuel (bs.drop 63)

/-- Split the padded message into 64-byte blocks. -/
def toBlocks (l : List Nat) : List (List Nat) := toBlocksAux l.length l

/-- The 16 little-endian 32-bit words of one 64-byte block. -/
def blockWords (blk : List Nat) : List Nat :=
  (List.range 16).map (fun j =>
    blk.getD (4 * j) 0 + blk.getD (4 * j + 1) 0 * 256 +
    blk.getD (4 * j + 2) 0 * 65536 + blk.getD (4 * j + 3) 0 * 16777216)

/-- One MD5 round `i` on state `(A, B, C, D)` with message words `m`. -/
def md5Round (m : List Nat) (st : Nat × Nat × Nat × Nat) (i : Nat) :
    Nat × Nat × Nat × Nat :=
  let (a, b, c, d) := st
  let mask := 2 ^ 32 - 1
  let (f, g) :=
    if i < 16 then (Nat.lor (Nat.land b c) (Nat.land (Nat.xor b mask) d), i)
    else if i < 32 then (Nat.lor (Nat.land d b) (Nat.land (Nat.xor d mask) c), (5 * i + 1) % 16)
    else if i < 48 then (Nat.xor (Nat.xor b c) d, (3 * i + 5) % 16)
    else (Nat.xor c (Nat.lor b (Nat.xor d mask)), 7 * i % 16)
  let f2 := (f + a + md5K.getD i 0 + m.getD g 0) % 2 ^ 32
  (d, (b + rotl32 f2 (md5S.getD i 0)) % 2 ^ 32, b, c)

/-- Process one 64-byte block, updating the running state. -/
def md5Block (st : Nat × Nat × Nat × Nat) (blk : List Nat) : Nat × Nat × Nat × Nat :=
  let m := blockWords blk
  let (a, b, c, d) := (List.range 64).foldl (md5Round m) st
  ((st.1 + a) % 2 ^ 32, (st.2.1 + b) % 2 ^ 32, (st.2.2.1 + c) % 2 ^ 32, (st.2.2.2 + d) % 2 ^ 32)

/-- Little-endian bytes of a 32-bit word. -/
def wordLE (w : Nat) : List Nat :=
  [w % 256, w / 256 % 256, w / 65536 % 256, w / 16777216 % 256]

/-- The 16-byte MD5 digest of a byte string. -/
def md5Bytes (msg : List Nat) : List Nat :=
  let st := (toBlocks (md5Pad msg)).foldl md5Block
    (0x67452301, 0xefcdab89, 0x98badcfe, 0x10325476)
  wordLE st.1 ++ wordLE st.2.1 ++ wordLE st.2.2.1 ++ wordLE st.2.2.2

/-- Lowercase hex digit for a value below 16. -/
def hexChar (n : Nat) : Char :=
  if n < 10 then Char.ofNat (48 + n) else Char.ofNat (87 + n)

/-- Two lowercase hex digits of one byte. -/
def byteHex (b : Nat) : List Char := [hexChar (b / 16), hexChar (b % 16)]

/-- Python `.hexdigest()`: the 32-character lowercase hex form of a digest. -/
def hexDigest (bytes : List Nat) : List Char := (bytes.map byteHex).flatten

/-- Function `generate_id(text)` (src/core/utils.py lines 10-12):
`hashlib.md5(text.encode()).hexdigest()[:16]`. -/
def generate_id (text : List Char) : List Char :=
  (hexDigest (md5Bytes (utf8Bytes text))).take 16

/-! ### Schemas (src/data_ingestion/schemas.py) -/

/-- Enum `DocumentType` (lines 6-14).  The Python member `EXAMPLE` is named
`exampleDoc` because `example` is a Lean keyword. -/
inductive DocumentType where
  | api_endpoint
  | parameter
  | exampleDoc
  | response_schema
  | error_code
  | overview
  | tutorial
deriving DecidableEq, Repr

/-- The metadata dictionary built by `_extract_metadata` (lines 86-108 of
document_processor.py): the four base keys plus the two optional ones
(`none` = key absent). -/
structure Meta where
  source_type : List Char
  document_type : DocumentType
  scraped_at : Nat
  url : List Char
  api_endpoint : Option (List Char)
  extracted_parameters : Option (List (List Char))
deriving DecidableEq, Repr

/-- The chunk-level metadata dictionary `{**metadata, "chunk_index": i,
"total_chunks": …, "chunk_size": …}` (lines 147-152 of document_processor.py). -/
structure ChunkMeta where
  base : Meta
  chunk_index : Nat
  total_chunks : Nat
  chunk_size : Nat
deriving DecidableEq, Repr

/-- Schema `APIDocument` (lines 16-43); the environment-supplied `embedding`,
`created_at` and `updated_at` fields carry no claim and are omitted. -/
structure APIDocument where
  id : List Char
  content : List Char
  document_type : DocumentType
  source_url : List Char
  api_endpoint : Option (List Char)
  metadata : ChunkMeta
deriving DecidableEq, Repr

/-- Schema `RawDocument` (lines 45-51); `timestamp` is an abstract clock value
(`scraped_at` stores it), `headers` carries no claim and is omitted. -/
structure RawDocument where
  url : List Char
  content : List Char
  content_type : List Char
  timestamp : Nat
deriving DecidableEq, Repr

/-- Schema `ProcessedDocument` (lines 53-59). -/
structure ProcessedDocument where
  original_url : List Char
  chunks : List APIDocument
  total_chunks : Nat
  processing_time : Nat
  errors : List (List Char)
deriving DecidableEq, Repr

/-- The `values` dict pydantic v1 passes to a field validator: it holds only
the fields declared (and already validated) before the field being validated;
`none` means the key is absent, so `values.get(key, '')` yields `''`. -/
structure ValidatorValues where
  content : Option (List Char)
  source_url : Option (List Char)
deriving DecidableEq, Repr

/-- Validator `APIDocument.generate_id_if_missing` (schemas.py lines 31-40):
with no id, hash `f"{content[:100]}{source}"` where
`content = values.get('content', '')` and `source = values.get('source_url', '')`;
otherwise keep the given id. -/
def generate_id_if_missing (v : Option (List Char)) (values : ValidatorValues) :
    List Char :=
  match v with
  | some idv => idv
  | none => generate_id ((values.content.getD []).take 100 ++ values.source_url.getD [])

/-- The id a constructed `APIDocument` actually receives.  The repository runs
pydantic v1 (config.py imports `BaseSettings` from `pydantic`, schemas.py uses
the v1 `validator` decorator), and in v1 the `values` dict holds only fields
declared before the one being validated; `id` is the FIRST declared field of
`APIDocument` (line 18), so its validator always sees an empty `values` dict,
whatever the document's `content` and `source_url` arguments are. -/
def make_document_id (v : Option (List Char)) (content source : List Char) :
    List Char :=
  generate_id_if_missing v { content := none, source_url := none }

/-! ### `DocumentProcessor` (src/data_ingestion/document_processor.py)

`chunk_size`/`chunk_overlap` are passed explicitly (`cs`, `ov`).  The
regex-based `_extract_parameters` (lines 110-127) is kept abstract: the
functions below take it as a parameter `eP`, so every theorem holds for
every regex behaviour. -/

/-- Keyword `'example'` of classification rule 1. -/
def kwExample : List Char := "example".toList

/-- Keyword `'parameter'` of classification rule 2. -/
def kwParameter : List Char := "parameter".toList

/-- Keyword `'param'` of classification rule 2. -/
def kwParam : List Char := "param".toList

/-- Keyword `'response'` of classification rule 3. -/
def kwResponse : List Char := "response".toList

/-- Keyword `'schema'` of classification rule 3. -/
def kwSchema : List Char := "schema".toList

/-- Keyword `'error'` of classification rule 4. -/
def kwError : List Char := "error".toList

/-- Keyword `'status'` of classification rule 4. -/
def kwStatus : List Char := "status".toList

/-- Keyword `'tutorial'` of classification rule 5. -/
def kwTutorial : List Char := "tutorial".toList

/-- Keyword `'guide'` of classification rule 5. -/
def kwGuide : List Char := "guide".toList

/-- Keyword `'/#'` of classification rule 6. -/
def kwSlashHash : List Char := "/#".toList

/-- Keyword `'endpoint'` of classification rule 6. -/
def kwEndpoint : List Char := "endpoint".toList

/-- Domain `'api.nasa.gov'` tested by `_extract_metadata` line 96. -/
def nasaDomain : List Char := "api.nasa.gov".toList

/-- Method `_classify_document` (lines 66-84): seven ordered keyword rules on the
lowercased url and content, first match wins, default `OVERVIEW`. -/
def classify_document (url content : List Char) : DocumentType :=
  let u := lowerL url
  let c := lowerL content
  if hasSub c kwExample || hasSub u kwExample then .exampleDoc
  else if hasSub c kwParameter || hasSub u kwParam then .parameter
  else if hasSub c kwResponse || hasSub c kwSchema then .response_schema
  else if hasSub c kwError || hasSub c kwStatus then .error_code
  else if hasSub c kwTutorial || hasSub c kwGuide then .tutorial
  else if hasSub u kwSlashHash || hasSub c kwEndpoint then .api_endpoint
  else .overview

/-- Lines 97-102: `parts = url.split('/')`, then the first part equal to `'#'`
selects the following part (`parts[i+1]` when `i + 1 < len(parts)`). -/
def findHashEndpoint : List (List Char) → Option (List Char)
  | [] => none
  | p :: rest => if p = ['#'] then rest.head? else findHashEndpoint rest

/-- Method `_extract_metadata` (lines 86-108). -/
def extract_metadata (eP : List Char → List (List Char)) (raw : RawDocument)
    (t : DocumentType) : Meta :=
  let base : Meta :=
    { source_type := raw.content_type, document_type := t,
      scraped_at := raw.timestamp, url := raw.url,
      api_endpoint := none, extracted_parameters := none }
  let m1 :=
    if hasSub raw.url nasaDomain then
      match findHashEndpoint (splitOnChar '/' raw.url) with
      | some ep => { base with api_endpoint := some ep }
      | none => base
    else base
  if t = DocumentType.parameter then
    { m1 with extracted_parameters := some (eP raw.content) }
  else m1

/-- The `APIDocument` built for segment `i` (lines 141-153):
`id = generate_id(f"{url}_{i}")`. -/
def mkChunkDoc (url : List Char) (t : DocumentType) (m : Meta) (tc : Nat)
    (i : Nat) (seg : List Char) : APIDocument :=
  { id := generate_id (url ++ '_' :: Nat.toDigits 10 i),
    content := seg,
    document_type := t,
    source_url := url,
    api_endpoint := m.api_endpoint,
    metadata := { base := m, chunk_index := i, total_chunks := tc,
                  chunk_size := seg.length } }

/-- The `for i, chunk_content in enumerate(text_chunks)` loop of
`_create_chunks` (lines 135-154), carried index `i` explicit; segments whose
trimmed length is below 50 are skipped (lines 136-138). -/
def chunksAux (url : List Char) (t : DocumentType) (m : Meta) (tc : Nat) :
    Nat → List (List Char) → List APIDocument
  | _, [] => []
  | i, seg :: rest =>
    if (trim seg).length < 50 then chunksAux url t m tc (i + 1) rest
    else mkChunkDoc url t m tc i seg :: chunksAux url t m tc (i + 1) rest

/-- Method `_create_chunks` (lines 129-156). -/
def create_chunks (cs ov : Nat) (content url : List Char) (t : DocumentType)
    (m : Meta) : List APIDocument :=
  let segs := chunk_text content cs ov
  chunksAux url t m segs.length 0 segs

/-- Method `_process_single_document` (lines 42-64); `pt` is the elapsed wall-clock
time `time.time() - start_time`, supplied by the environment. -/
def process_single_document (eP : List Char → List (List Char)) (cs ov pt : Nat)
    (raw : RawDocument) : ProcessedDocument :=
  let t := classify_document raw.url raw.content
  let m := extract_metadata eP raw t
  let chunks := create_chunks cs ov raw.content raw.url t m
  { original_url := raw.url, chunks := chunks, total_chunks := chunks.length,
    processing_time := pt, errors := [] }

/-- The per-document body of `process_raw_documents` (lines 24-38): the
`try`/`except` either keeps the processed result or builds the failure
record.  `proc` is the fallible single-document processing. -/
def processStep (proc : RawDocument → Except (List Char) ProcessedDocument)
    (d : RawDocument) : ProcessedDocument :=
  match proc d with
  | Except.ok p => p
  | Except.error e =>
    { original_url := d.url, chunks := [], total_chunks := 0,
      processing_time := 0, errors := [e] }

/-- Method `process_raw_documents` (lines 20-40). -/
def process_raw_documents (proc : RawDocument → Except (List Char) ProcessedDocument)
    (docs : List RawDocument) : List ProcessedDocument :=
  docs.map (processStep proc)

/-! ### Concrete inputs used by witnesses and counterexamples -/

/-- The sixteen lowercase hex digits of `hexdigest`. -/
def hexDigitChars : List Char := "0123456789abcdef".toList

/-- Text whose second window extends backwards and forwards past a break
character on both sides. -/
def cexText : List Char := "a.aaaaaaaaaaaaaaaaa.a".toList

/-- Sample content of 120 identical characters. -/
def wContent : List Char := List.replicate 120 'a'

/-- Sample source url. -/
def wUrl : List Char := ['u']

/-- Sample base metadata record. -/
def wMeta : Meta :=
  { source_type := ['t'], document_type := DocumentType.overview, scraped_at := 0,
    url := ['u'], api_endpoint := none, extracted_parameters := none }

/-- The single chunk document produced from `wContent` with
`chunk_size = 100`, `overlap = 0`. -/
def wDoc : APIDocument := mkChunkDoc wUrl DocumentType.overview wMeta 2 0 (List.replicate 100 'a')

/-- Sample raw document with `wContent` as content. -/
def wRaw : RawDocument :=
  { url := ['u'], content := wContent, content_type := ['t'], timestamp := 0 }

/-- The raw document of the repository test `test_extract_metadata`. -/
def nasaRaw : RawDocument :=
  { url := "https://api.nasa.gov/#apod".toList,
    content := "The Astronomy Picture of the Day API".toList,
    content_type := "html".toList, timestamp := 0 }

/-- Content containing both rule-1 and rule-5 keywords. -/
def exTutContent : List Char := "example tutorial".toList

/-- Sample raw documents for the batch-isolation witness. -/
def rawU1 : RawDocument :=
  { url := "u1".toList, content := wContent, content_type := ['t'], timestamp := 0 }

/-- Second sample raw document (the one made to fail). -/
def rawU2 : RawDocument :=
  { url := "u2".toList, content := wContent, content_type := ['t'], timestamp := 0 }

/-- Third sample raw document. -/
def rawU3 : RawDocument :=
  { url := "u3".toList, content := wContent, content_type := ['t'], timestamp := 0 }

/-- A batch of three raw documents. -/
def docsEx : List RawDocument := [rawU1, rawU2, rawU3]

/-- A successful processing result for url `u`. -/
def okDoc (u : List Char) : ProcessedDocument :=
  { original_url := u, chunks := [], total_chunks := 0, processing_time := 3, errors := [] }

/-- A single-document processor that raises exactly on `rawU2`. -/
def procEx : RawDocument → Except (List Char) ProcessedDocument :=
  fun d => if d.url = rawU2.url then Except.error ['b'] else Except.ok (okDoc d.url)

/-- Content of 101 identical characters. -/
def cA : List Char := List.replicate 101 'a'

/-- Content agreeing with `cA` on the first 100 characters but distinct. -/
def cB : List Char := List.replicate 100 'a' ++ ['b']

/-- The first 16 hex characters of `md5(b"")`. -/
def emptyMd5Id : List Char := "d41d8cd98f00b204".toList

/-! ### Lemmas about `chunk_text` -/

theorem trim_length_le (l : List Char) : (trim l).length ≤ l.length := by
  unfold trim
  calc ((l.dropWhile isPySpace).reverse.dropWhile isPySpace).reverse.length
      = ((l.dropWhile isPySpace).reverse.dropWhile isPySpace).length := List.length_reverse _
    _ ≤ (l.dropWhile isPySpace).reverse.length :=
        ((l.dropWhile isPySpace).reverse.dropWhile_sublist isPySpace).length_le
    _ = (l.dropWhile isPySpace).length := List.length_reverse _
    _ ≤ l.length := (l.dropWhile_sublist isPySpace).length_le

theorem sliceStr_length_le (l : List Char) (a b : Nat) :
    (sliceStr l a b).length ≤ b - a := by
  unfold sliceStr
  rw [List.length_drop, List.length_take]
  omega

theorem backAdjust_bound (text : List Char) (ov start : Nat) :
    start ≤ backAdjust text ov start + ov := by
  unfold backAdjust
  cases hf : (List.range' (start - ov + 1) (start - (start - ov))).reverse.find?
      (fun i => decide (i < text.length) && isBreakChar (text.getD i ' ')) with
  | none => exact Nat.le_add_right start ov
  | some i =>
    have hmem := List.mem_reverse.mp (List.mem_of_find?_eq_some hf)
    have hb := List.mem_range'_1.mp hmem
    show start ≤ i + 1 + ov
    omega

theorem stepEnd_ge (text : List Char) (cs ov start : Nat) :
    start + cs ≤ stepEnd text cs ov start := by
  unfold stepEnd
  split
  · unfold fwdAdjust
    cases hf : (List.range' (start + cs) (min (start + cs + ov) text.length - (start + cs))).find?
        (fun i => isBreakChar (text.getD i ' ')) with
    | none => exact Nat.le_refl _
    | some i =>
      have hb := List.mem_range'_1.mp (List.mem_of_find?_eq_some hf)
      show start + cs ≤ i + 1
      omega
  · exact Nat.le_refl _

theorem stepEnd_le (text : List Char) (cs ov start : Nat) :
    stepEnd text cs ov start ≤ start + cs + ov := by
  unfold stepEnd
  split
  · unfold fwdAdjust
    cases hf : (List.range' (start + cs) (min (start + cs + ov) text.length - (start + cs))).find?
        (fun i => isBreakChar (text.getD i ' ')) with
    | none => exact Nat.le_add_right _ _
    | some i =>
      have hb := List.mem_range'_1.mp (List.mem_of_find?_eq_some hf)
      show i + 1 ≤ start + cs + ov
      omega
  · exact Nat.le_add_right _ _

/-- One-step unfolding of `chunkAux` with the `let` bindings expanded. -/
theorem chunkAux_succ (text : List Char) (cs ov f start : Nat) :
    chunkAux text cs ov (f + 1) start =
      if start < text.length then
        if chunkAt text cs ov start = [] then
          chunkAux text cs ov f (stepEnd text cs ov start - ov)
        else
          chunkAt text cs ov start :: chunkAux text cs ov f (stepEnd text cs ov start - ov)
      else [] := rfl

theorem chunkAt_length (text : List Char) (cs ov start : Nat) :
    (chunkAt text cs ov start).length ≤ cs + 2 * ov := by
  have hs1 : start ≤ (if 0 < start then backAdjust text ov start else start) + ov := by
    split
    · exact backAdjust_bound text ov start
    · exact Nat.le_add_right start ov
  have he1 : stepEnd text cs ov start ≤ start + cs + ov := stepEnd_le text cs ov start
  calc (chunkAt text cs ov start).length
      ≤ (sliceStr text (if 0 < start then backAdjust text ov start else start)
          (stepEnd text cs ov start)).length := trim_length_le _
    _ ≤ stepEnd text cs ov start -
          (if 0 < start then backAdjust text ov start else start) := sliceStr_length_le _ _ _
    _ ≤ cs + 2 * ov := by omega

theorem chunkAux_mem_bounds (text : List Char) (cs ov : Nat) :
    ∀ fuel start c, c ∈ chunkAux text cs ov fuel start →
      c ≠ [] ∧ c.length ≤ cs + 2 * ov := by
  intro fuel
  induction fuel with
  | zero => intro start c hc; simp [chunkAux] at hc
  | succ f ih =>
    intro start c hc
    rw [chunkAux_succ] at hc
    split at hc
    · split at hc
      · exact ih _ _ hc
      · rcases List.mem_cons.mp hc with rfl | hrest
        · exact ⟨by assumption, chunkAt_length text cs ov start⟩
        · exact ih _ _ hrest
    · simp at hc

/-- Once the loop guard `start < text_length` fails, no chunks are produced,
whatever fuel remains. -/
theorem chunkAux_of_ge (text : List Char) (cs ov : Nat) (fuel start : Nat)
    (h : text.length ≤ start) : chunkAux text cs ov fuel start = [] := by
  cases fuel with
  | zero => rfl
  | succ f => rw [chunkAux_succ, if_neg (by omega)]

theorem stepEnd_next_gt (text : List Char) (cs ov start : Nat) (h : ov < cs) :
    start < stepEnd text cs ov start - ov := by
  have := stepEnd_ge text cs ov start
  omega

theorem chunkAux_stable (text : List Char) (cs ov : Nat) (h : ov < cs) :
    ∀ f g start, text.length - start ≤ f → text.length - start ≤ g →
      chunkAux text cs ov f start = chunkAux text cs ov g start := by
  intro f
  induction f with
  | zero =>
    intro g start hf hg
    rw [chunkAux_of_ge text cs ov _ _ (by omega), chunkAux_of_ge text cs ov _ _ (by omega)]
  | succ f ih =>
    intro g start hf hg
    cases g with
    | zero =>
      rw [chunkAux_of_ge text cs ov _ _ (by omega), chunkAux_of_ge text cs ov _ _ (by omega)]
    | succ g =>
      rw [chunkAux_succ, chunkAux_succ]
      split
      · have hnext := stepEnd_next_gt text cs ov start h
        rename_i hguard
        rw [ih g (stepEnd text cs ov start - ov) (by omega) (by omega)]
      · rfl

/-! ### Lemmas about `_create_chunks` -/

theorem chunksAux_mem (url : List Char) (t : DocumentType) (m : Meta) (tc : Nat) :
    ∀ segs i d, d ∈ chunksAux url t m tc i segs →
      ∃ j, j < segs.length ∧ 50 ≤ (trim (segs.getD j [])).length ∧
        d = mkChunkDoc url t m tc (i + j) (segs.getD j []) := by
  intro segs
  induction segs with
  | nil => intro i d hd; simp [chunksAux] at hd
  | cons seg rest ih =>
    intro i d hd
    simp only [chunksAux] at hd
    split at hd
    · obtain ⟨j, hj, h50, hde⟩ := ih (i + 1) d hd
      refine ⟨j + 1, by simpa using hj, by simpa using h50, ?_⟩
      have harith : i + (j + 1) = i + 1 + j := by omega
      rw [harith]
      simpa using hde
    · rcases List.mem_cons.mp hd with rfl | hrest
      · refine ⟨0, by simp, ?_, by simp⟩
        simp only [List.getD_cons_zero]
        omega
      · obtain ⟨j, hj, h50, hde⟩ := ih (i + 1) d hrest
        refine ⟨j + 1, by simpa using hj, by simpa using h50, ?_⟩
        have harith : i + (j + 1) = i + 1 + j := by omega
        rw [harith]
        simpa using hde

theorem chunksAux_index_ge (url : List Char) (t : DocumentType) (m : Meta) (tc : Nat)
    (segs : List (List Char)) (i : Nat) (d : APIDocument)
    (hd : d ∈ chunksAux url t m tc i segs) : i ≤ d.metadata.chunk_index := by
  obtain ⟨j, _, _, rfl⟩ := chunksAux_mem url t m tc segs i d hd
  show i ≤ i + j
  omega

theorem chunksAux_pairwise (url : List Char) (t : DocumentType) (m : Meta) (tc : Nat) :
    ∀ segs i, List.Pairwise (fun a b => a.metadata.chunk_index < b.metadata.chunk_index)
      (chunksAux url t m tc i segs) := by
  intro segs
  induction segs with
  | nil => intro i; simp [chunksAux]
  | cons seg rest ih =>
    intro i
    simp only [chunksAux]
    split
    · exact ih (i + 1)
    · refine List.Pairwise.cons (fun d hd => ?_) (ih (i + 1))
      have := chunksAux_index_ge url t m tc rest (i + 1) d hd
      show i < d.metadata.chunk_index
      omega

theorem chunksAux_id (url : List Char) (t : DocumentType) (m : Meta) (tc : Nat)
    (segs : List (List Char)) (i : Nat) (d : APIDocument)
    (hd : d ∈ chunksAux url t m tc i segs) :
    d.id = generate_id (url ++ '_' :: Nat.toDigits 10 d.metadata.chunk_index) := by
  obtain ⟨j, _, _, rfl⟩ := chunksAux_mem url t m tc segs i d hd
  rfl

/-! ### Lemmas about `generate_id` -/

theorem md5Bytes_length (m : List Nat) : (md5Bytes m).length = 16 := by
  simp [md5Bytes, wordLE]

theorem hexDigest_length (bs : List Nat) : (hexDigest bs).length = 2 * bs.length := by
  induction bs with
  | nil => rfl
  | cons b rest ih =>
    simp only [hexDigest, List.map_cons, List.flatten_cons, List.length_append,
      List.length_cons] at *
    simp [byteHex] at *
    omega

theorem generate_id_length (s : List Char) : (generate_id s).length = 16 := by
  unfold generate_id
  rw [List.length_take, hexDigest_length, md5Bytes_length]
  rfl

theorem hexChar_mem : ∀ n, n < 16 → hexChar n ∈ hexDigitChars := by decide

theorem wordLE_lt (w : Nat) : ∀ b ∈ wordLE w, b < 256 := by
  intro b hb
  simp [wordLE] at hb
  rcases hb with rfl | rfl | rfl | rfl <;> omega

theorem md5Bytes_lt (m : List Nat) : ∀ b ∈ md5Bytes m, b < 256 := by
  intro b hb
  unfold md5Bytes at hb
  simp only [List.mem_append] at hb
  rcases hb with ((h | h) | h) | h <;> exact wordLE_lt _ b h

theorem mem_hexDigest (bs : List Nat) (c : Char) (hc : c ∈ hexDigest bs) :
    ∃ b ∈ bs, c ∈ byteHex b := by
  unfold hexDigest at hc
  rw [List.mem_flatten] at hc
  obtain ⟨l, hl, hcl⟩ := hc
  rw [List.mem_map] at hl
  obtain ⟨b, hb, rfl⟩ := hl
  exact ⟨b, hb, hcl⟩

theorem generate_id_hex (s : List Char) : ∀ ch ∈ generate_id s, ch ∈ hexDigitChars := by
  intro ch hch
  have h1 : ch ∈ hexDigest (md5Bytes (utf8Bytes s)) := List.take_subset _ _ hch
  obtain ⟨b, hb, hcb⟩ := mem_hexDigest _ _ h1
  have hlt := md5Bytes_lt _ b hb
  simp only [byteHex, List.mem_cons, List.not_mem_nil, or_false] at hcb
  rcases hcb with rfl | rfl
  · exact hexChar_mem _ (by omega)
  · exact hexChar_mem _ (by omega)

/-! ### Claim theorems -/

/-- C2: as stated the claim fails: for `text = cexText`, `maxSize = 10`,
`overlap = 5` (which satisfy `maxSize > 0` and `0 ≤ overlap < maxSize`) the
second chunk has length `18 > maxSize + overlap = 15`, because the backward
break-point search moves the window start up to `overlap - 2` characters left
while the forward search moves its end up to `overlap` characters right. -/
theorem chunk_text_length_cex :
    ¬ (∀ c ∈ chunk_text cexText 10 5, c.length ≤ 10 + 5 ∧ trim c ≠ []) := by decide

/-- C2 (amended): for every text, `maxSize > 0`, `0 ≤ overlap < maxSize`,
every chunk returned by `segment` has length at most `maxSize + 2*overlap`
and is non-empty after trimming (chunks are emitted already stripped). -/
theorem chunk_text_bounds (text : List Char) (cs ov : Nat) (h1 : 0 < cs)
    (h2 : ov < cs) : ∀ c ∈ chunk_text text cs ov, c ≠ [] ∧ c.length ≤ cs + 2 * ov :=
  fun c hc => chunkAux_mem_bounds text cs ov _ _ c hc

/-- Witness for `chunk_text_bounds` at a concrete input. -/
theorem chunk_text_bounds_witness :
    0 < 10 ∧ 5 < 10 ∧ ∀ c ∈ chunk_text cexText 10 5, c ≠ [] ∧ c.length ≤ 10 + 2 * 5 :=
  ⟨by decide, by decide, chunk_text_bounds cexText 10 5 (by decide) (by decide)⟩

/-- C8: when `0 ≤ overlap < maxSize` the segmentation loop terminates: the
window start strictly increases each iteration (`start < stepEnd - overlap`),
the fuel-indexed loop is stable at any fuel of at least `text.length`
iterations (so the while-loop has reached its fixed point), and the empty
input yields the empty sequence. -/
theorem chunk_text_termination (text : List Char) (cs ov : Nat) (h : ov < cs) :
    (∀ start, start < stepEnd text cs ov start - ov)
    ∧ (∀ f, text.length ≤ f → chunkAux text cs ov f 0 = chunk_text text cs ov)
    ∧ chunk_text [] cs ov = [] :=
  ⟨fun start => stepEnd_next_gt text cs ov start h,
   fun f hf => chunkAux_stable text cs ov h f text.length 0 (by omega) (by omega),
   rfl⟩

/-- Witness for `chunk_text_termination` at a concrete input. -/
theorem chunk_text_termination_witness :
    5 < 10 ∧ ((∀ start, start < stepEnd cexText 10 5 start - 5)
    ∧ (∀ f, cexText.length ≤ f → chunkAux cexText 10 5 f 0 = chunk_text cexText 10 5)
    ∧ chunk_text [] 10 5 = []) :=
  ⟨by decide, chunk_text_termination cexText 10 5 (by decide)⟩

/-- C4: `classify` is a total function on url and content; when the lowercased
content contains both `'example'` and `'tutorial'`, rule 1 fires first and the
result is `EXAMPLE`; when none of the seven rules' keyword tests match, the
result is the default `OVERVIEW`. -/
theorem classify_document_spec :
    (∀ url content, hasSub (lowerL content) kwExample = true →
      hasSub (lowerL content) kwTutorial = true →
      classify_document url content = DocumentType.exampleDoc)
    ∧ (∀ url content,
        hasSub (lowerL content) kwExample = false → hasSub (lowerL url) kwExample = false →
        hasSub (lowerL content) kwParameter = false → hasSub (lowerL url) kwParam = false →
        hasSub (lowerL content) kwResponse = false → hasSub (lowerL content) kwSchema = false →
        hasSub (lowerL content) kwError = false → hasSub (lowerL content) kwStatus = false →
        hasSub (lowerL content) kwTutorial = false → hasSub (lowerL content) kwGuide = false →
        hasSub (lowerL url) kwSlashHash = false → hasSub (lowerL content) kwEndpoint = false →
        classify_document url content = DocumentType.overview) := by
  constructor
  · intro url content hex htut
    unfold classify_document
    simp [hex]
  · intro url content h1 h2 h3 h4 h5 h6 h7 h8 h9 h10 h11 h12
    unfold classify_document
    simp [h1, h2, h3, h4, h5, h6, h7, h8, h9, h10, h11, h12]

/-- Witness for `classify_document_spec` at concrete inputs. -/
theorem classify_document_spec_witness :
    (hasSub (lowerL exTutContent) kwExample = true
      ∧ hasSub (lowerL exTutContent) kwTutorial = true
      ∧ classify_document wUrl exTutContent = DocumentType.exampleDoc)
    ∧ classify_document ['z'] ['z'] = DocumentType.overview :=
  ⟨⟨by decide, by decide,
      classify_document_spec.1 wUrl exTutContent (by decide) (by decide)⟩,
    classify_document_spec.2 ['z'] ['z'] (by decide) (by decide) (by decide) (by decide)
      (by decide) (by decide) (by decide) (by decide) (by decide) (by decide)
      (by decide) (by decide)⟩

/-- C5: every chunk's id is `generate_id` of `"{url}_{chunkIndex}"`; a generated
id is 16 lowercase hex characters; and chunks of any two runs over the same
url that share a chunk index share their id (idempotent re-ingestion). -/
theorem create_chunks_id_deterministic :
    (∀ cs ov content url t m d, d ∈ create_chunks cs ov content url t m →
        d.id = generate_id (url ++ '_' :: Nat.toDigits 10 d.metadata.chunk_index))
    ∧ (∀ s, (generate_id s).length = 16 ∧ ∀ ch ∈ generate_id s, ch ∈ hexDigitChars)
    ∧ (∀ cs1 ov1 c1 t1 m1 cs2 ov2 c2 t2 m2 url d1 d2,
        d1 ∈ create_chunks cs1 ov1 c1 url t1 m1 →
        d2 ∈ create_chunks cs2 ov2 c2 url t2 m2 →
        d1.metadata.chunk_index = d2.metadata.chunk_index → d1.id = d2.id) := by
  refine ⟨?_, fun s => ⟨generate_id_length s, generate_id_hex s⟩, ?_⟩
  · intro cs ov content url t m d hd
    exact chunksAux_id url t m (chunk_text content cs ov).length
      (chunk_text content cs ov) 0 d hd
  · intro cs1 ov1 c1 t1 m1 cs2 ov2 c2 t2 m2 url d1 d2 h1 h2 hidx
    have e1 := chunksAux_id url t1 m1 (chunk_text c1 cs1 ov1).length
      (chunk_text c1 cs1 ov1) 0 d1 h1
    have e2 := chunksAux_id url t2 m2 (chunk_text c2 cs2 ov2).length
      (chunk_text c2 cs2 ov2) 0 d2 h2
    rw [e1, e2, hidx]

/-- Witness for `create_chunks_id_deterministic` at a concrete input. -/
theorem create_chunks_id_deterministic_witness :
    wDoc ∈ create_chunks 100 0 wContent wUrl DocumentType.overview wMeta
    ∧ wDoc.id = generate_id (wUrl ++ '_' :: Nat.toDigits 10 wDoc.metadata.chunk_index)
    ∧ (generate_id wUrl).length = 16 := by
  have hm : wDoc ∈ create_chunks 100 0 wContent wUrl DocumentType.overview wMeta := by decide
  exact ⟨hm,
    create_chunks_id_deterministic.1 100 0 wContent wUrl DocumentType.overview wMeta wDoc hm,
    (create_chunks_id_deterministic.2.1 wUrl).1⟩

/-- C6: every chunk document emitted by `_create_chunks` has trimmed content
of at least 50 characters: segments shorter than that are skipped. -/
theorem create_chunks_min_length (cs ov : Nat) (content url : List Char)
    (t : DocumentType) (m : Meta) :
    ∀ d ∈ create_chunks cs ov content url t m, 50 ≤ (trim d.content).length := by
  intro d hd
  obtain ⟨j, _, h50, rfl⟩ := chunksAux_mem url t m (chunk_text content cs ov).length
    (chunk_text content cs ov) 0 d hd
  exact h50

/-- Witness for `create_chunks_min_length` at a concrete input. -/
theorem create_chunks_min_length_witness :
    wDoc ∈ create_chunks 100 0 wContent wUrl DocumentType.overview wMeta
    ∧ 50 ≤ (trim wDoc.content).length := by
  have hm : wDoc ∈ create_chunks 100 0 wContent wUrl DocumentType.overview wMeta := by decide
  exact ⟨hm,
    create_chunks_min_length 100 0 wContent wUrl DocumentType.overview wMeta wDoc hm⟩

/-- C7: chunks appear in segment order (their `chunk_index` values are
strictly increasing along the output), and each chunk's `chunk_index` is its
raw pre-filter segment position: the chunk's content is the segment at that
index, so surviving indices may have gaps but stay stable per raw segment. -/
theorem create_chunks_order (cs ov : Nat) (content url : List Char)
    (t : DocumentType) (m : Meta) :
    List.Pairwise (fun a b => a.metadata.chunk_index < b.metadata.chunk_index)
      (create_chunks cs ov content url t m)
    ∧ ∀ d ∈ create_chunks cs ov content url t m,
        d.metadata.chunk_index < (chunk_text content cs ov).length
        ∧ d.content = (chunk_text content cs ov).getD d.metadata.chunk_index [] := by
  constructor
  · exact chunksAux_pairwise url t m (chunk_text content cs ov).length
      (chunk_text content cs ov) 0
  · intro d hd
    obtain ⟨j, hj, _, rfl⟩ := chunksAux_mem url t m (chunk_text content cs ov).length
      (chunk_text content cs ov) 0 d hd
    constructor
    · show 0 + j < (chunk_text content cs ov).length
      omega
    · show (chunk_text content cs ov).getD j [] = (chunk_text content cs ov).getD (0 + j) []
      rw [Nat.zero_add]

/-- Witness for `create_chunks_order` at a concrete input. -/
theorem create_chunks_order_witness :
    wDoc ∈ create_chunks 100 0 wContent wUrl DocumentType.overview wMeta
    ∧ wDoc.metadata.chunk_index < (chunk_text wContent 100 0).length
    ∧ wDoc.content = (chunk_text wContent 100 0).getD wDoc.metadata.chunk_index [] := by
  have hm : wDoc ∈ create_chunks 100 0 wContent wUrl DocumentType.overview wMeta := by decide
  have h := (create_chunks_order 100 0 wContent wUrl DocumentType.overview wMeta).2 wDoc hm
  exact ⟨hm, h.1, h.2⟩

/-- C3: `processAll` returns one result per input in order; a document on
which processing raises produces the failure record (`chunks = []`,
`totalChunks = 0`, `processingTime = 0`, `errors = [msg]`) without affecting
the rest of the batch, and a successfully processed document has
`errors = []`. -/
theorem process_raw_documents_isolation
    (proc : RawDocument → Except (List Char) ProcessedDocument)
    (docs : List RawDocument) (i : Nat) (h : i < docs.length) :
    (process_raw_documents proc docs).length = docs.length
    ∧ (process_raw_documents proc docs)[i]? = some (processStep proc (docs.get ⟨i, h⟩))
    ∧ (∀ e, proc (docs.get ⟨i, h⟩) = Except.error e →
        processStep proc (docs.get ⟨i, h⟩) =
          { original_url := (docs.get ⟨i, h⟩).url, chunks := [], total_chunks := 0,
            processing_time := 0, errors := [e] })
    ∧ (∀ p, proc (docs.get ⟨i, h⟩) = Except.ok p → processStep proc (docs.get ⟨i, h⟩) = p)
    ∧ (∀ eP cs ov pt raw, (process_single_document eP cs ov pt raw).errors = []) := by
  refine ⟨by simp [process_raw_documents], ?_, ?_, ?_, fun eP cs ov pt raw => rfl⟩
  · rw [process_raw_documents, List.getElem?_map, List.getElem?_eq_getElem h]
    rfl
  · intro e he
    unfold processStep
    rw [he]
  · intro p hp
    unfold processStep
    rw [hp]

/-- Witness for `process_raw_documents_isolation`: three documents, the second
fails, the batch still yields three results and the second is the failure
record. -/
theorem process_raw_documents_isolation_witness :
    1 < docsEx.length
    ∧ (process_raw_documents procEx docsEx).length = docsEx.length
    ∧ (process_raw_documents procEx docsEx)[1]? =
        some (processStep procEx (docsEx.get ⟨1, by decide⟩))
    ∧ processStep procEx (docsEx.get ⟨1, by decide⟩) =
        { original_url := (docsEx.get ⟨1, by decide⟩).url, chunks := [], total_chunks := 0,
          processing_time := 0, errors := [['b']] } := by
  have h := process_raw_documents_isolation procEx docsEx 1 (by decide)
  exact ⟨by decide, h.1, h.2.1, h.2.2.1 ['b'] (by rfl)⟩

/-- C9: in every emitted chunk the metadata field `total_chunks` counts the
raw segments before the degenerate filter, whereas `ProcessedDocument.total_chunks`
counts the chunks after it; on `wRaw` (120 characters, `chunk_size = 100`,
`overlap = 0`) the chunk metadata says 2 while the document says 1. -/
theorem total_chunks_mismatch :
    (∀ cs ov content url t m d, d ∈ create_chunks cs ov content url t m →
        d.metadata.total_chunks = (chunk_text content cs ov).length)
    ∧ (∀ eP cs ov pt raw, (process_single_document eP cs ov pt raw).total_chunks
        = (process_single_document eP cs ov pt raw).chunks.length)
    ∧ ((process_single_document (fun _ => []) 100 0 0 wRaw).chunks.map
          (fun d => d.metadata.total_chunks) = [2]
        ∧ (process_single_document (fun _ => []) 100 0 0 wRaw).total_chunks = 1) := by
  refine ⟨?_, fun eP cs ov pt raw => rfl, by decide, by decide⟩
  intro cs ov content url t m d hd
  obtain ⟨j, _, _, rfl⟩ := chunksAux_mem url t m (chunk_text content cs ov).length
    (chunk_text content cs ov) 0 d hd
  rfl

/-- Witness for `total_chunks_mismatch` at a concrete input. -/
theorem total_chunks_mismatch_witness :
    wDoc ∈ create_chunks 100 0 wContent wUrl DocumentType.overview wMeta
    ∧ wDoc.metadata.total_chunks = (chunk_text wContent 100 0).length := by
  have hm : wDoc ∈ create_chunks 100 0 wContent wUrl DocumentType.overview wMeta := by decide
  exact ⟨hm,
    total_chunks_mismatch.1 100 0 wContent wUrl DocumentType.overview wMeta wDoc hm⟩

/-- C10 (code evidence): because `id` is the first declared field of
`APIDocument`, pydantic v1 hands its validator an empty `values` dict, so a
document constructed with no id always receives the constant
`md5(b"")[:16] = "d41d8cd98f00b204"`, independent of its content and source
url; distinct contents therefore share ids trivially, and the id is NOT the
hash of `content[:100] + source_url` promised by the validator's own
docstring and body. -/
theorem generate_id_if_missing_empty_values :
    (∀ v content source, make_document_id v content source = generate_id_if_missing v
        { content := none, source_url := none })
    ∧ (∀ content source, make_document_id none content source = generate_id [])
    ∧ generate_id [] = emptyMd5Id
    ∧ cA ≠ cB
    ∧ make_document_id none cA ['s'] = make_document_id none cB ['s']
    ∧ make_document_id none cA ['s'] ≠ generate_id (cA.take 100 ++ ['s']) :=
  ⟨fun v content source => rfl, fun content source => rfl, by decide, by decide, rfl,
    by decide⟩

/-- C1 (code evidence): for the repository test's own input
`"https://api.nasa.gov/#apod"` the domain check passes, yet no `'/'`-split
component equals the bare `'#'` the loop searches for, so `_extract_metadata`
never adds `api_endpoint` — contradicting the spec and the repository test
`test_extract_metadata`, which expect `api_endpoint == "apod"`. -/
theorem extract_metadata_no_endpoint :
    hasSub nasaRaw.url nasaDomain = true
    ∧ (extract_metadata (fun _ => []) nasaRaw DocumentType.api_endpoint).api_endpoint = none
    ∧ (splitOnChar '/' nasaRaw.url).contains ['#'] = false := by decide

end PlainAPI
